import Mathlib

/-!
Verification development for `cppcheck_map_html.py`.

The module transforms cppcheck text output into HTML fragments.  Python
strings are modelled as lists of characters (`Str`), each Python string
split that can raise `ValueError` is modelled with `Option`, and the
generator `map_findings` is modelled as a fold over the input lines that
returns the list of yielded fragments together with a completion flag
(`false` when an uncaught `ValueError` aborts the generator).
-/

namespace CppcheckMapHtml

/-- Python `str` values are modelled as lists of characters. -/
abbrev Str := List Char

/-- Model of Python `s.split(sep, 1)` followed by two-target unpacking, for a
non-empty separator: the pieces around the first (leftmost) occurrence of
`sep`, or `none` when `sep` does not occur (Python raises `ValueError`). -/
def splitOnceAux (sep : Str) : Str → Option (Str × Str)
  | [] => none
  | c :: cs =>
    if sep.isPrefixOf (c :: cs) then some ([], (c :: cs).drop sep.length)
    else (splitOnceAux sep cs).map (fun pq => (c :: pq.1, pq.2))

/-- Python `s.split(sep, 1)` with two-target unpacking (argument order s, sep). -/
def splitOnce (s sep : Str) : Option (Str × Str) := splitOnceAux sep s

/-- Python `s.lstrip("[")`: drop every leading occurrence of the character. -/
def lstripAll (c : Char) (s : Str) : Str := s.dropWhile (fun x => x == c)

/-- Scanner for Python `s.replace(pat, "")`: walk the string left to right;
`skip > 0` means the scanner is inside a matched occurrence and drops the
character; at `skip = 0` a fresh match of `pat` starts dropping its
`pat.length` characters, anything else is kept. -/
def removeAllAux (pat : Str) : Str → Nat → Str
  | [], _ => []
  | _ :: cs, k + 1 => removeAllAux pat cs k
  | c :: cs, 0 =>
    if pat ≠ [] ∧ pat.isPrefixOf (c :: cs) then removeAllAux pat cs (pat.length - 1)
    else c :: removeAllAux pat cs 0

/-- Python `s.replace(pat, "")`: remove every leftmost, non-overlapping
occurrence of `pat` (all occurrences, not only a leading one).  For the
empty pattern the Python call returns `s` unchanged, as here. -/
def removeAll (pat : Str) (s : Str) : Str := removeAllAux pat s 0

/-- Python `line.strip()` (whitespace on both ends removed). -/
def pyStrip (s : Str) : Str :=
  ((s.dropWhile Char.isWhitespace).reverse.dropWhile Char.isWhitespace).reverse

/-- Split on the slash character, keeping empty components. -/
def splitSlash : Str → List Str
  | [] => [[]]
  | c :: cs =>
    if c = '/' then [] :: splitSlash cs
    else
      match splitSlash cs with
      | [] => [[c]]
      | h :: t => (c :: h) :: t

/-- Model of `pathlib.Path(s).parts` for POSIX paths: the root (for absolute
paths) followed by the non-empty, non-`.` components.  (The POSIX
double-slash root special case is not modelled; no claim touches it.) -/
def pathParts (s : Str) : List Str :=
  let comps := (splitSlash s).filter (fun comp => !(comp.isEmpty || comp == ['.']))
  if s.head? = some '/' then ['/'] :: comps else comps

/-- The source expression `f'{"/".join(pathlib.Path(p).parts[:-1])}/'`:
the directory of `p` joined with a trailing slash. -/
def candidate_folder (p : Str) : Str :=
  List.intercalate ['/'] (pathParts p).dropLast ++ ['/']

/-- The constant `BASE_URL` of the module. -/
def BASE_URL : Str := "https://bitbucket.example.com/".data

/-- The dictionary `level_prefix_map` together with the
`level_prefix_map.get(level, level_prefix_map["nn"])` lookup: the opening
span tag for a severity level, with the `sp-nn` tag as fallback.  (The
dictionary also stores the key `"nn"`, whose value equals the fallback.) -/
def level_prefix_map (level : Str) : Str :=
  if level = "error".data then "<span class=\"sp-err\">".data
  else if level = "information".data then "<span class=\"sp-info\">".data
  else if level = "style".data then "<span class=\"sp-style\">".data
  else if level = "performance".data then "<span class=\"sp-perf\">".data
  else if level = "portability".data then "<span class=\"sp-port\">".data
  else if level = "warning".data then "<span class=\"sp-warn\">".data
  else if level = "performance, inconclusive".data then "<span class=\"sp-perf-unsure\">".data
  else if level = "style, inconclusive".data then "<span class=\"sp-style-unsure\">".data
  else "<span class=\"sp-nn\">".data

/-- One yielded HTML fragment, tagged by which yield site produced it. -/
inductive Frag where
  | heading : Str → Frag
  | finding : Str → Frag
  | warnings : Str → Frag
deriving DecidableEq

/-- The fragment as the plain string the generator yields. -/
def Frag.render : Frag → Str
  | .heading s => s
  | .finding s => s
  | .warnings s => s

/-- Whether a fragment comes from the folder-heading yield site. -/
def Frag.isHeading : Frag → Bool
  | .heading _ => true
  | _ => false

/-- Whether a fragment comes from the trailing-warnings yield site. -/
def Frag.isWarnings : Frag → Bool
  | .warnings _ => true
  | _ => false

/-- The running state of `map_findings`: the folder memo and the collected
unparseable lines (`job_warnings`). -/
structure TState where
  folder_memo : Str
  job_warnings : List Str
deriving DecidableEq

/-- The trailing fragment
`f'<h2>Warnings from Job Execution</h2><pre>{nl.join(job_warnings)}</pre>'`. -/
def warn_block (job_warnings : List Str) : Str :=
  "<h2>Warnings from Job Execution</h2><pre>".data ++
    List.intercalate "\n".data job_warnings ++ "</pre>".data

/-- One loop iteration of `map_findings` on an already-stripped record:
the new state and the fragments yielded for this line, or `none` for the
uncaught `ValueError` of the relation branch (whose three re-derivation
splits are not wrapped in `try`/`except` in the source). -/
def stepRecord (project repo commit : Str) (st : TState) (record : Str) :
    Option (TState × List Frag) :=
  if record = [] then some (st, [])
  else
    match splitOnce record "]: (".data with
    | none => some ({ st with job_warnings := st.job_warnings ++ [record] }, [])
    | some (address_part, rest) =>
      match splitOnce (lstripAll '[' address_part) ":".data with
      | none => some ({ st with job_warnings := st.job_warnings ++ [record] }, [])
      | some (_local_path, line_number) =>
        if '[' ∈ line_number then
          -- the source repeats record.split("]: (", 1) here; it yields the same pair
          match splitOnce (lstripAll '[' address_part) "] -> [".data with
          | none => none
          | some (left, right) =>
            match splitOnce left ":".data with
            | none => none
            | some (left_path, left_number) =>
              match splitOnce right ":".data with
              | none => none
              | some (right_path, right_number) =>
                let folder_memo :=
                  if st.folder_memo.isPrefixOf left_path then st.folder_memo
                  else candidate_folder left_path
                let head_frags :=
                  if st.folder_memo.isPrefixOf left_path then ([] : List Frag)
                  else [Frag.heading ("<h2>".data ++ folder_memo ++ "</h2>".data)]
                let left_display := removeAll folder_memo left_path ++ [':'] ++ left_number
                let right_display := removeAll folder_memo right_path ++ [':'] ++ right_number
                match splitOnce rest ") ".data with
                | none =>
                  some ({ folder_memo := folder_memo,
                          job_warnings := st.job_warnings ++ [record] }, head_frags)
                | some (level, finding) =>
                  let level_display := level_prefix_map level ++ level ++ "</span>".data
                  let left_url := BASE_URL ++ "projects/".data ++ project ++ "/repos/".data ++
                    repo ++ "/browse/".data ++ left_path ++ "?at=".data ++ commit ++ ['#'] ++
                    left_number
                  let right_url := BASE_URL ++ "projects/".data ++ project ++ "/repos/".data ++
                    repo ++ "/browse/".data ++ right_path ++ "?at=".data ++ commit ++ ['#'] ++
                    right_number
                  let left_link := "[<a href=\"".data ++ left_url ++
                    "\" class=\"no-decor\">".data ++ left_display ++ "</a>]".data
                  let right_link := "[<a href=\"".data ++ right_url ++
                    "\" class=\"no-decor\">".data ++ right_display ++ "</a>]".data
                  some ({ folder_memo := folder_memo, job_warnings := st.job_warnings },
                    head_frags ++
                      [Frag.finding ("<p class=\"finding\"><span class=\"ff-075\">".data ++
                        left_link ++ " -&gt; ".data ++ right_link ++ ": </span>".data ++
                        level_display ++ "<span class=\"ff-075\"> ".data ++ finding ++
                        "</span></p>".data)])
        else
          let local_path := _local_path
          let folder_memo :=
            if st.folder_memo.isPrefixOf local_path then st.folder_memo
            else candidate_folder local_path
          let head_frags :=
            if st.folder_memo.isPrefixOf local_path then ([] : List Frag)
            else [Frag.heading ("<h2>".data ++ folder_memo ++ "</h2>".data)]
          let path_display := removeAll folder_memo local_path ++ [':'] ++ line_number
          match splitOnce rest ") ".data with
          | none =>
            some ({ folder_memo := folder_memo,
                    job_warnings := st.job_warnings ++ [record] }, head_frags)
          | some (level, finding) =>
            let level_display := level_prefix_map level ++ level ++ "</span>".data
            let the_url := BASE_URL ++ "projects/".data ++ project ++ "/repos/".data ++
              repo ++ "/browse/".data ++ local_path ++ "?at=".data ++ commit ++ ['#'] ++
              line_number
            let the_link := "[<a href=\"".data ++ the_url ++
              "\" class=\"no-decor\">".data ++ path_display ++ "</a>]".data
            some ({ folder_memo := folder_memo, job_warnings := st.job_warnings },
              head_frags ++
                [Frag.finding ("<p class=\"finding\"><span class=\"ff-075\">".data ++
                  the_link ++ ": </span>".data ++ level_display ++
                  "<span class=\"ff-075\"> ".data ++ finding ++ "</span></p>".data)])

/-- One loop iteration of `map_findings` on a raw input line
(`record = line.strip()` first). -/
def stepLine (project repo commit : Str) (st : TState) (line : Str) :
    Option (TState × List Frag) :=
  stepRecord project repo commit st (pyStrip line)

/-- The loop of `map_findings` over the remaining lines, from a given state:
the fragments yielded and the final state, or `none` in the second component
when the generator aborted with an uncaught `ValueError` (the fragments
yielded before the abort are still reported). -/
def map_findings_run (project repo commit : Str) (st : TState) :
    List Str → List Frag × Option TState
  | [] => ([], some st)
  | l :: ls =>
    match stepLine project repo commit st l with
    | none => ([], none)
    | some (st', fs) =>
      let r := map_findings_run project repo commit st' ls
      (fs ++ r.1, r.2)

/-- The initial state of `map_findings`. -/
def initial_state : TState := { folder_memo := "NOWHERE_LAND".data, job_warnings := [] }

/-- The generator `map_findings(stream, project, repo, commit)`: the list of
yielded fragments and `true` when it ran to completion (appending the
trailing warnings block when any unparseable line was collected), or the
fragments yielded so far and `false` when an uncaught `ValueError` aborted
it. -/
def map_findings (lines : List Str) (project repo commit : Str) : List Frag × Bool :=
  match map_findings_run project repo commit initial_state lines with
  | (fs, none) => (fs, false)
  | (fs, some st) =>
    (fs ++ (if st.job_warnings = [] then []
            else [Frag.warnings (warn_block st.job_warnings)]), true)

/-- The first usage line printed by `process` on a wrong argument count. -/
def usage_line_one : Str :=
  "Usage: script project repo branch commit < text_report > html_report".data

/-- A single-quote character (used by the Python `repr` of a string list). -/
def squote : Char := Char.ofNat 39

/-- Python `f"({argv})"` interpolation of a list of quote-free strings:
its `repr`, i.e. bracketed, comma-separated, each element single-quoted. -/
def py_repr_argv (argv : List Str) : Str :=
  ['['] ++ List.intercalate ", ".data (argv.map (fun s => [squote] ++ s ++ [squote])) ++ [']']

/-- The second usage line printed by `process` on a wrong argument count. -/
def usage_line_two (argv : List Str) : Str :=
  "Received (".data ++ py_repr_argv argv ++ ") argument vector".data

/-- The CLI entry `process(argv)` reading the given stdin lines: the exit
code together with the printed report lines.  The fixed page shell and the
wall-clock timestamp line are omitted from the model (no claim mentions
them); `none` models the uncaught exception propagating out of the
transform, in which case `process` never returns. -/
def process (argv : List Str) (stdin : List Str) : Option (Nat × List Str) :=
  match argv with
  | [project, repo, _branch, commit] =>
    match map_findings stdin project repo commit with
    | (fs, true) => some (0, fs.map Frag.render)
    | (_, false) => none
  | _ => some (2, [usage_line_one, usage_line_two argv])

/-- The display label as the specification sentence describes it: the
folder-memo prefix removed from the front of the path (the rest of the path
left intact), then `:line_number`.  Stated from the claim wording, for
comparison with the `removeAll`-based display the code computes. -/
def spec_display (folder_memo path line_number : Str) : Str :=
  (if folder_memo.isPrefixOf path then path.drop folder_memo.length else path) ++
    [':'] ++ line_number

theorem splitOnceAux_of_isPre {sep s : Str} (hne : sep ≠ []) (h : sep.isPrefixOf s) :
    splitOnceAux sep s = some ([], s.drop sep.length) := by
  cases s with
  | nil =>
    cases sep with
    | nil => exact absurd rfl hne
    | cons a as => simp [List.isPrefixOf] at h
  | cons c cs => simp [splitOnceAux, h]

theorem splitOnceAux_cons_neg {sep : Str} {c : Char} {cs : Str}
    (h : ¬ sep.isPrefixOf (c :: cs)) :
    splitOnceAux sep (c :: cs) = (splitOnceAux sep cs).map (fun pq => (c :: pq.1, pq.2)) := by
  simp [splitOnceAux, h]

theorem splitOnceAux_append_of_head (c0 : Char) {sep t : Str} (a : Str)
    (hh : sep.head? = some c0) (hc : c0 ∉ a) :
    splitOnceAux sep (a ++ t) = (splitOnceAux sep t).map (fun pq => (a ++ pq.1, pq.2)) := by
  induction a with
  | nil =>
    simp only [List.nil_append]
    cases h : splitOnceAux sep t <;> simp [h]
  | cons x a ih =>
    cases sep with
    | nil => simp at hh
    | cons s0 sep' =>
      have hs0 : s0 = c0 := by simpa using hh
      have hx : ¬ (s0 :: sep').isPrefixOf (x :: (a ++ t)) := by
        intro hp
        simp [List.isPrefixOf] at hp
        exact hc (by simp [hs0 ▸ hp.1.symm, List.mem_cons])
      rw [List.cons_append, splitOnceAux_cons_neg hx,
          ih (fun hmem => hc (List.mem_cons_of_mem x hmem))]
      cases h : splitOnceAux (s0 :: sep') t <;> simp [h]

theorem splitOnce_boundary (c0 : Char) {sep a b : Str}
    (hne : sep ≠ []) (hh : sep.head? = some c0) (hc : c0 ∉ a) :
    splitOnce (a ++ sep ++ b) sep = some (a, b) := by
  unfold splitOnce
  rw [List.append_assoc, splitOnceAux_append_of_head c0 a hh hc,
      splitOnceAux_of_isPre hne (List.isPrefixOf_iff_prefix.mpr (List.prefix_append sep b))]
  simp [List.drop_left]

theorem not_mem_append2 {c : Char} {a b : Str} (ha : c ∉ a) (hb : c ∉ b) : c ∉ a ++ b :=
  fun h => (List.mem_append.mp h).elim ha hb

theorem not_mem_cons2 {c x : Char} {l : Str} (hx : c ≠ x) (hl : c ∉ l) : c ∉ x :: l := by
  simp [List.mem_cons, hx, hl]

theorem lstripAll_open_append {path rest : Str} (hne : path ≠ []) (hmem : '[' ∉ path) :
    lstripAll '[' ('[' :: (path ++ rest)) = path ++ rest := by
  cases path with
  | nil => exact absurd rfl hne
  | cons p0 p' =>
    have hp0 : p0 ≠ '[' := fun h => hmem (h ▸ List.mem_cons_self p0 p')
    simp [lstripAll, List.dropWhile_cons, hp0]

/-- A well-formed single-location record, grouped for the parse lemmas. -/
def singleRecord (path n level fnd : Str) : Str :=
  ('[' :: (path ++ (":".data ++ n))) ++ "]: (".data ++ (level ++ (") ".data ++ fnd))

theorem stepRecord_single (project repo commit : Str) (st : TState)
    (path n level fnd : Str)
    (hpne : path ≠ []) (hp1 : '[' ∉ path) (hp2 : ']' ∉ path) (hp3 : ':' ∉ path)
    (hn1 : ']' ∉ n) (hn2 : '[' ∉ n) (hl : ')' ∉ level) :
    stepRecord project repo commit st (singleRecord path n level fnd) =
      some
        ({ folder_memo := if st.folder_memo.isPrefixOf path then st.folder_memo
                          else candidate_folder path,
           job_warnings := st.job_warnings },
         (if st.folder_memo.isPrefixOf path then ([] : List Frag)
          else [Frag.heading ("<h2>".data ++ candidate_folder path ++ "</h2>".data)]) ++
         [Frag.finding
           ("<p class=\"finding\"><span class=\"ff-075\">".data ++
            ("[<a href=\"".data ++
              (BASE_URL ++ "projects/".data ++ project ++ "/repos/".data ++ repo ++
                "/browse/".data ++ path ++ "?at=".data ++ commit ++ ['#'] ++ n) ++
              "\" class=\"no-decor\">".data ++
              (removeAll (if st.folder_memo.isPrefixOf path then st.folder_memo
                          else candidate_folder path) path ++ [':'] ++ n) ++
              "</a>]".data) ++
            ": </span>".data ++
            (level_prefix_map level ++ level ++ "</span>".data) ++
            "<span class=\"ff-075\"> ".data ++ fnd ++ "</span></p>".data)]) := by
  have h1 : splitOnce (singleRecord path n level fnd) "]: (".data
      = some ('[' :: (path ++ (":".data ++ n)), level ++ (") ".data ++ fnd)) := by
    refine splitOnce_boundary ']' (by decide) (by decide) ?_
    exact not_mem_cons2 (by decide)
      (not_mem_append2 hp2 (not_mem_append2 (by decide) hn1))
  have h2 : lstripAll '[' ('[' :: (path ++ (":".data ++ n))) = path ++ (":".data ++ n) :=
    lstripAll_open_append hpne hp1
  have h3 : splitOnce (path ++ (":".data ++ n)) ":".data = some (path, n) := by
    rw [← List.append_assoc]
    exact splitOnce_boundary ':' (by decide) (by decide) hp3
  have h4 : splitOnce (level ++ (") ".data ++ fnd)) ") ".data = some (level, fnd) := by
    rw [← List.append_assoc]
    exact splitOnce_boundary ')' (by decide) (by decide) hl
  have hne : singleRecord path n level fnd ≠ [] := by simp [singleRecord]
  simp only [stepRecord, if_neg hne, h1, h2, h3, hn2, if_false, ite_false, h4]
  by_cases hmemo : st.folder_memo.isPrefixOf path <;>
    simp [hmemo, List.append_assoc]
/-- A well-formed relation record, grouped for the parse lemmas. -/
def relationRecord (lp ln rp rn level fnd : Str) : Str :=
  ('[' :: (lp ++ (":".data ++ (ln ++ ("] -> [".data ++ (rp ++ (":".data ++ rn))))))) ++
    "]: (".data ++ (level ++ (") ".data ++ fnd))

theorem first_split_relation (lp ln rp rn tail : Str)
    (hlp2 : ']' ∉ lp) (hln1 : ']' ∉ ln) (hrp2 : ']' ∉ rp) (hrn1 : ']' ∉ rn) :
    splitOnce
        (('[' :: (lp ++ (":".data ++ (ln ++ ("] -> [".data ++ (rp ++ (":".data ++ rn))))))) ++
          "]: (".data ++ tail) "]: (".data
      = some ('[' :: (lp ++ (":".data ++ (ln ++ ("] -> [".data ++ (rp ++ (":".data ++ rn)))))),
              tail) := by
  have harrow : ∀ X : Str, ¬ ("]: (".data.isPrefixOf (']' :: (' ' :: X))) := by
    intro X h
    have e : ((':' : Char) == ' ') = false := by decide
    simp [List.isPrefixOf, e] at h
  have hc1 : ']' ∉ ('[' :: (lp ++ (":".data ++ ln))) :=
    not_mem_cons2 (by decide) (not_mem_append2 hlp2 (not_mem_append2 (by decide) hln1))
  have hc3 : ']' ∉ (' ' :: ("-> [".data ++ (rp ++ (":".data ++ rn)))) :=
    not_mem_cons2 (by decide)
      (not_mem_append2 (by decide) (not_mem_append2 hrp2 (not_mem_append2 (by decide) hrn1)))
  have e1 : ('[' :: (lp ++ (":".data ++ (ln ++ ("] -> [".data ++ (rp ++ (":".data ++ rn))))))) ++
        "]: (".data ++ tail
      = ('[' :: (lp ++ (":".data ++ ln))) ++
        (']' :: (' ' :: (("-> [".data ++ (rp ++ (":".data ++ rn))) ++
          ("]: (".data ++ tail)))) := by
    simp [List.append_assoc]
  unfold splitOnce
  rw [e1, splitOnceAux_append_of_head ']' _ (by decide) hc1,
      splitOnceAux_cons_neg (harrow _)]
  rw [show (' ' :: (("-> [".data ++ (rp ++ (":".data ++ rn))) ++
        ("]: (".data ++ tail)))
      = (' ' :: ("-> [".data ++ (rp ++ (":".data ++ rn)))) ++
        ("]: (".data ++ tail) from by simp [List.append_assoc]]
  rw [splitOnceAux_append_of_head ']' _ (by decide) hc3]
  rw [splitOnceAux_of_isPre (by decide)
        (List.isPrefixOf_iff_prefix.mpr (List.prefix_append _ _))]
  simp [List.drop_left, List.append_assoc]
set_option maxRecDepth 8000 in
theorem stepRecord_relation (project repo commit : Str) (st : TState)
    (lp ln rp rn level fnd : Str)
    (hlpne : lp ≠ []) (hlp1 : '[' ∉ lp) (hlp2 : ']' ∉ lp) (hlp3 : ':' ∉ lp)
    (hln1 : ']' ∉ ln) (hrp2 : ']' ∉ rp) (hrp3 : ':' ∉ rp) (hrn1 : ']' ∉ rn)
    (hl : ')' ∉ level) :
    stepRecord project repo commit st (relationRecord lp ln rp rn level fnd) =
      some
        ({ folder_memo := if st.folder_memo.isPrefixOf lp then st.folder_memo
                          else candidate_folder lp,
           job_warnings := st.job_warnings },
         (if st.folder_memo.isPrefixOf lp then ([] : List Frag)
          else [Frag.heading ("<h2>".data ++ candidate_folder lp ++ "</h2>".data)]) ++
         [Frag.finding
           ("<p class=\"finding\"><span class=\"ff-075\">".data ++
            ("[<a href=\"".data ++
              (BASE_URL ++ "projects/".data ++ project ++ "/repos/".data ++ repo ++
                "/browse/".data ++ lp ++ "?at=".data ++ commit ++ ['#'] ++ ln) ++
              "\" class=\"no-decor\">".data ++
              (removeAll (if st.folder_memo.isPrefixOf lp then st.folder_memo
                          else candidate_folder lp) lp ++ [':'] ++ ln) ++
              "</a>]".data) ++
            " -&gt; ".data ++
            ("[<a href=\"".data ++
              (BASE_URL ++ "projects/".data ++ project ++ "/repos/".data ++ repo ++
                "/browse/".data ++ rp ++ "?at=".data ++ commit ++ ['#'] ++ rn) ++
              "\" class=\"no-decor\">".data ++
              (removeAll (if st.folder_memo.isPrefixOf lp then st.folder_memo
                          else candidate_folder lp) rp ++ [':'] ++ rn) ++
              "</a>]".data) ++
            ": </span>".data ++
            (level_prefix_map level ++ level ++ "</span>".data) ++
            "<span class=\"ff-075\"> ".data ++ fnd ++ "</span></p>".data)]) := by
  have h1 : splitOnce (relationRecord lp ln rp rn level fnd) "]: (".data
      = some ('[' :: (lp ++ (":".data ++ (ln ++ ("] -> [".data ++ (rp ++ (":".data ++ rn)))))),
              level ++ (") ".data ++ fnd)) :=
    first_split_relation lp ln rp rn (level ++ (") ".data ++ fnd)) hlp2 hln1 hrp2 hrn1
  have h2 : lstripAll '['
      ('[' :: (lp ++ (":".data ++ (ln ++ ("] -> [".data ++ (rp ++ (":".data ++ rn)))))))
      = lp ++ (":".data ++ (ln ++ ("] -> [".data ++ (rp ++ (":".data ++ rn))))) :=
    lstripAll_open_append hlpne hlp1
  have h3 : splitOnce (lp ++ (":".data ++ (ln ++ ("] -> [".data ++ (rp ++ (":".data ++ rn))))))
      ":".data = some (lp, ln ++ ("] -> [".data ++ (rp ++ (":".data ++ rn)))) := by
    rw [← List.append_assoc]
    exact splitOnce_boundary ':' (by decide) (by decide) hlp3
  have hmem : '[' ∈ ln ++ ("] -> [".data ++ (rp ++ (":".data ++ rn))) := by
    refine List.mem_append.mpr (Or.inr ?_)
    exact List.mem_append.mpr (Or.inl (by decide))
  have h4 : splitOnce (lp ++ (":".data ++ (ln ++ ("] -> [".data ++ (rp ++ (":".data ++ rn))))))
      "] -> [".data = some (lp ++ (":".data ++ ln), rp ++ (":".data ++ rn)) := by
    rw [show lp ++ (":".data ++ (ln ++ ("] -> [".data ++ (rp ++ (":".data ++ rn)))))
        = (lp ++ (":".data ++ ln)) ++ "] -> [".data ++ (rp ++ (":".data ++ rn)) from by
      simp [List.append_assoc]]
    refine splitOnce_boundary ']' (by decide) (by decide) ?_
    exact not_mem_append2 hlp2 (not_mem_append2 (by decide) hln1)
  have h5 : splitOnce (lp ++ (":".data ++ ln)) ":".data = some (lp, ln) := by
    rw [← List.append_assoc]
    exact splitOnce_boundary ':' (by decide) (by decide) hlp3
  have h6 : splitOnce (rp ++ (":".data ++ rn)) ":".data = some (rp, rn) := by
    rw [← List.append_assoc]
    exact splitOnce_boundary ':' (by decide) (by decide) hrp3
  have h7 : splitOnce (level ++ (") ".data ++ fnd)) ") ".data = some (level, fnd) := by
    rw [← List.append_assoc]
    exact splitOnce_boundary ')' (by decide) (by decide) hl
  have hne : relationRecord lp ln rp rn level fnd ≠ [] := by simp [relationRecord]
  simp only [stepRecord, if_neg hne, h1, h2, h3, hmem, if_true, ite_true, h4, h5, h6, h7]
  by_cases hmemo : st.folder_memo.isPrefixOf lp <;>
    simp [hmemo, List.append_assoc]
theorem splitOnceAux_eq_none_iff {sep : Str} (hne : sep ≠ []) (s : Str) :
    splitOnceAux sep s = none ↔ ¬ sep <:+: s := by
  induction s with
  | nil => simp [splitOnceAux, List.infix_nil, hne]
  | cons c cs ih =>
    by_cases h : sep.isPrefixOf (c :: cs)
    · rw [splitOnceAux_of_isPre hne h]
      have hin : sep <:+: c :: cs := (List.isPrefixOf_iff_prefix.mp h).isInfix
      simp [hin]
    · rw [splitOnceAux_cons_neg h, List.infix_cons_iff]
      have hp : ¬ sep <+: c :: cs := fun hp => h (List.isPrefixOf_iff_prefix.mpr hp)
      simp [Option.map_eq_none', ih, hp]

theorem stepRecord_fail_first (project repo commit : Str) (st : TState) {record : Str}
    (hne : record ≠ []) (h : splitOnce record "]: (".data = none) :
    stepRecord project repo commit st record
      = some ({ st with job_warnings := st.job_warnings ++ [record] }, []) := by
  simp [stepRecord, hne, h]

theorem stepRecord_fail_second (project repo commit : Str) (st : TState)
    {record address_part rest : Str}
    (hne : record ≠ []) (h1 : splitOnce record "]: (".data = some (address_part, rest))
    (h2 : splitOnce (lstripAll '[' address_part) ":".data = none) :
    stepRecord project repo commit st record
      = some ({ st with job_warnings := st.job_warnings ++ [record] }, []) := by
  simp [stepRecord, hne, h1, h2]

set_option maxRecDepth 16000 in
theorem stepRecord_not_warnings {project repo commit : Str} {st : TState} {record : Str}
    {st' : TState} {fs : List Frag}
    (h : stepRecord project repo commit st record = some (st', fs)) (s : Str) :
    Frag.warnings s ∉ fs := by
  unfold stepRecord at h
  repeat' split at h
  all_goals simp only [Option.some.injEq, Prod.mk.injEq, reduceCtorEq] at h
  all_goals obtain ⟨-, h2⟩ := h
  all_goals subst h2
  all_goals simp

theorem map_findings_run_not_warnings (project repo commit : Str) (st : TState)
    (lines : List Str) (s : Str) :
    Frag.warnings s ∉ (map_findings_run project repo commit st lines).1 := by
  induction lines generalizing st with
  | nil => simp [map_findings_run]
  | cons l ls ih =>
    simp only [map_findings_run, stepLine]
    cases h : stepRecord project repo commit st (pyStrip l) with
    | none => simp
    | some p =>
      obtain ⟨st', fs⟩ := p
      show Frag.warnings s ∉ fs ++ (map_findings_run project repo commit st' ls).1
      simp only [List.mem_append]
      rintro (hmem | hmem)
      · exact stepRecord_not_warnings h s hmem
      · exact ih st' hmem

theorem splitOnce_eq_none_of_no_match {s sep : Str} (hne : sep ≠ [])
    (h : ¬ sep <:+: s) : splitOnce s sep = none :=
  (splitOnceAux_eq_none_iff hne s).mpr h

theorem map_findings_run_junk (project repo commit : Str) (lines : List Str) :
    ∀ st : TState, (∀ l ∈ lines, pyStrip l ≠ [] ∧ ¬ ("]: (".data <:+: pyStrip l)) →
      map_findings_run project repo commit st lines
        = ([], some { st with job_warnings := st.job_warnings ++ lines.map pyStrip }) := by
  induction lines with
  | nil =>
    intro st _
    cases st
    simp [map_findings_run]
  | cons l ls ih =>
    intro st h
    obtain ⟨hne, hinf⟩ := h l (List.mem_cons_self l ls)
    have hstep : stepLine project repo commit st l
        = some ({ st with job_warnings := st.job_warnings ++ [pyStrip l] }, []) :=
      stepRecord_fail_first project repo commit st hne
        (splitOnce_eq_none_of_no_match (by decide) hinf)
    have hrest := ih { st with job_warnings := st.job_warnings ++ [pyStrip l] }
      (fun x hx => h x (List.mem_cons_of_mem l hx))
    simp [map_findings_run, hstep, hrest, List.append_assoc]

theorem stepRecord_single_failLast (project repo commit : Str) (st : TState)
    (path n tail : Str)
    (hpne : path ≠ []) (hp1 : '[' ∉ path) (hp2 : ']' ∉ path) (hp3 : ':' ∉ path)
    (hn1 : ']' ∉ n) (hn2 : '[' ∉ n) (htail : ¬ ") ".data <:+: tail) :
    stepRecord project repo commit st
        (('[' :: (path ++ (":".data ++ n))) ++ "]: (".data ++ tail)
      = some
          ({ folder_memo := if st.folder_memo.isPrefixOf path then st.folder_memo
                            else candidate_folder path,
             job_warnings := st.job_warnings ++
               [('[' :: (path ++ (":".data ++ n))) ++ "]: (".data ++ tail] },
           if st.folder_memo.isPrefixOf path then ([] : List Frag)
           else [Frag.heading ("<h2>".data ++ candidate_folder path ++ "</h2>".data)]) := by
  have h1 : splitOnce (('[' :: (path ++ (":".data ++ n))) ++ "]: (".data ++ tail) "]: (".data
      = some ('[' :: (path ++ (":".data ++ n)), tail) :=
    splitOnce_boundary ']' (by decide) (by decide)
      (not_mem_cons2 (by decide) (not_mem_append2 hp2 (not_mem_append2 (by decide) hn1)))
  have h2 : lstripAll '[' ('[' :: (path ++ (":".data ++ n))) = path ++ (":".data ++ n) :=
    lstripAll_open_append hpne hp1
  have h3 : splitOnce (path ++ (":".data ++ n)) ":".data = some (path, n) := by
    rw [← List.append_assoc]
    exact splitOnce_boundary ':' (by decide) (by decide) hp3
  have h4 : splitOnce tail ") ".data = none :=
    splitOnce_eq_none_of_no_match (by decide) htail
  have hne : (('[' :: (path ++ (":".data ++ n))) ++ "]: (".data ++ tail) ≠ [] := by simp
  simp only [stepRecord, if_neg hne, h1, h2, h3, hn2, if_false, ite_false, h4]
  by_cases hmemo : st.folder_memo.isPrefixOf path <;> simp [hmemo]

set_option maxRecDepth 8000 in
theorem stepRecord_relation_failLast (project repo commit : Str) (st : TState)
    (lp ln rp rn tail : Str)
    (hlpne : lp ≠ []) (hlp1 : '[' ∉ lp) (hlp2 : ']' ∉ lp) (hlp3 : ':' ∉ lp)
    (hln1 : ']' ∉ ln) (hrp2 : ']' ∉ rp) (hrp3 : ':' ∉ rp) (hrn1 : ']' ∉ rn)
    (htail : ¬ ") ".data <:+: tail) :
    stepRecord project repo commit st
        (('[' :: (lp ++ (":".data ++ (ln ++ ("] -> [".data ++ (rp ++ (":".data ++ rn))))))) ++
          "]: (".data ++ tail)
      = some
          ({ folder_memo := if st.folder_memo.isPrefixOf lp then st.folder_memo
                            else candidate_folder lp,
             job_warnings := st.job_warnings ++
               [('[' :: (lp ++ (":".data ++ (ln ++ ("] -> [".data ++
                  (rp ++ (":".data ++ rn))))))) ++ "]: (".data ++ tail] },
           if st.folder_memo.isPrefixOf lp then ([] : List Frag)
           else [Frag.heading ("<h2>".data ++ candidate_folder lp ++ "</h2>".data)]) := by
  have h1 := first_split_relation lp ln rp rn tail hlp2 hln1 hrp2 hrn1
  have h2 : lstripAll '['
      ('[' :: (lp ++ (":".data ++ (ln ++ ("] -> [".data ++ (rp ++ (":".data ++ rn)))))))
      = lp ++ (":".data ++ (ln ++ ("] -> [".data ++ (rp ++ (":".data ++ rn))))) :=
    lstripAll_open_append hlpne hlp1
  have h3 : splitOnce (lp ++ (":".data ++ (ln ++ ("] -> [".data ++ (rp ++ (":".data ++ rn))))))
      ":".data = some (lp, ln ++ ("] -> [".data ++ (rp ++ (":".data ++ rn)))) := by
    rw [← List.append_assoc]
    exact splitOnce_boundary ':' (by decide) (by decide) hlp3
  have hmem : '[' ∈ ln ++ ("] -> [".data ++ (rp ++ (":".data ++ rn))) := by
    refine List.mem_append.mpr (Or.inr ?_)
    exact List.mem_append.mpr (Or.inl (by decide))
  have h4 : splitOnce (lp ++ (":".data ++ (ln ++ ("] -> [".data ++ (rp ++ (":".data ++ rn))))))
      "] -> [".data = some (lp ++ (":".data ++ ln), rp ++ (":".data ++ rn)) := by
    rw [show lp ++ (":".data ++ (ln ++ ("] -> [".data ++ (rp ++ (":".data ++ rn)))))
        = (lp ++ (":".data ++ ln)) ++ "] -> [".data ++ (rp ++ (":".data ++ rn)) from by
      simp [List.append_assoc]]
    refine splitOnce_boundary ']' (by decide) (by decide) ?_
    exact not_mem_append2 hlp2 (not_mem_append2 (by decide) hln1)
  have h5 : splitOnce (lp ++ (":".data ++ ln)) ":".data = some (lp, ln) := by
    rw [← List.append_assoc]
    exact splitOnce_boundary ':' (by decide) (by decide) hlp3
  have h6 : splitOnce (rp ++ (":".data ++ rn)) ":".data = some (rp, rn) := by
    rw [← List.append_assoc]
    exact splitOnce_boundary ':' (by decide) (by decide) hrp3
  have h7 : splitOnce tail ") ".data = none :=
    splitOnce_eq_none_of_no_match (by decide) htail
  have hne : (('[' :: (lp ++ (":".data ++ (ln ++ ("] -> [".data ++
      (rp ++ (":".data ++ rn))))))) ++ "]: (".data ++ tail) ≠ [] := by simp
  simp only [stepRecord, if_neg hne, h1, h2, h3, hmem, if_true, ite_true, h4, h5, h6, h7]
  by_cases hmemo : st.folder_memo.isPrefixOf lp <;> simp [hmemo]
set_option maxRecDepth 16000 in
theorem stepRecord_jw_append {project repo commit : Str} {st : TState} {record : Str}
    {st' : TState} {fs : List Frag}
    (h : stepRecord project repo commit st record = some (st', fs)) :
    ∃ t, st'.job_warnings = st.job_warnings ++ t := by
  unfold stepRecord at h
  repeat' split at h
  all_goals simp only [Option.some.injEq, Prod.mk.injEq, reduceCtorEq] at h
  all_goals obtain ⟨h1, -⟩ := h
  all_goals subst h1
  all_goals first
    | exact ⟨[], (List.append_nil _).symm⟩
    | exact ⟨[record], rfl⟩

theorem run_eta_of_snd {project repo commit : Str} {st : TState} {lines : List Str}
    {st' : TState}
    (h : (map_findings_run project repo commit st lines).2 = some st') :
    map_findings_run project repo commit st lines
      = ((map_findings_run project repo commit st lines).1, some st') := by
  rw [← h]

theorem map_findings_run_jw_mono (project repo commit : Str) (lines : List Str) :
    ∀ (st : TState) (fs : List Frag) (st' : TState),
      map_findings_run project repo commit st lines = (fs, some st') →
      ∃ t, st'.job_warnings = st.job_warnings ++ t := by
  induction lines with
  | nil =>
    intro st fs st' h
    simp only [map_findings_run, Prod.mk.injEq, Option.some.injEq] at h
    obtain ⟨-, h2⟩ := h
    subst h2
    exact ⟨[], (List.append_nil _).symm⟩
  | cons l ls ih =>
    intro st fs st' h
    simp only [map_findings_run] at h
    cases hs : stepLine project repo commit st l with
    | none =>
      rw [hs] at h
      simp at h
    | some p1 =>
      obtain ⟨st1, fs1⟩ := p1
      rw [hs] at h
      have h2 : (map_findings_run project repo commit st1 ls).2 = some st' := by
        have := congrArg Prod.snd h
        simpa using this
      obtain ⟨t1, ht1⟩ := stepRecord_jw_append hs
      obtain ⟨t2, ht2⟩ := ih st1 (map_findings_run project repo commit st1 ls).1 st'
        (run_eta_of_snd h2)
      exact ⟨t1 ++ t2, by rw [ht2, ht1, List.append_assoc]⟩

theorem map_findings_run_append (project repo commit : Str) (xs ys : List Str) :
    ∀ st : TState,
      map_findings_run project repo commit st (xs ++ ys)
        = (match map_findings_run project repo commit st xs with
           | (fs, none) => (fs, none)
           | (fs, some st1) =>
             ((fs ++ (map_findings_run project repo commit st1 ys).1,
               (map_findings_run project repo commit st1 ys).2) :
               List Frag × Option TState)) := by
  induction xs with
  | nil =>
    intro st
    simp [map_findings_run]
  | cons x xs ih =>
    intro st
    simp only [List.cons_append, map_findings_run]
    cases hs : stepLine project repo commit st x with
    | none => simp
    | some p1 =>
      obtain ⟨st1, fs1⟩ := p1
      cases hr : map_findings_run project repo commit st1 xs with
      | mk fs2 o2 =>
        cases o2 <;> simp [ih st1, hr, List.append_assoc]

/-- C1: the claim says `map_findings` never raises and routes every non-blank
line that matches neither record shape into the unparseable bucket.  In fact
the relation branch re-derives the split without a `try` guard: on the
malformed line `[a:b[c]: (e) m` (whose parsed line-number part contains `[`
but whose address has no `] -> [`) the generator aborts with an uncaught
`ValueError` after yielding nothing, instead of bucketing the line. -/
theorem c1_relation_branch_uncaught_error :
    map_findings ["[a:b[c]: (e) m".data] "P".data "R".data "C".data = ([], false)
    ∧ map_findings ["[a:1] -> [b]: (e) m".data] "P".data "R".data "C".data = ([], false) := by
  exact ⟨by decide, by decide⟩

/-- C2 counterexample: the claim says a line failing at any parse step emits
no fragment and leaves the folder memo unchanged.  The line
`[src/a.c:10]: (oops` fails only at the final `") "` split, yet a folder
heading fragment for `src/` is emitted for it (and the memo is updated),
while the raw line still lands in the warnings bucket. -/
theorem c2_counterexample :
    map_findings ["[src/a.c:10]: (oops".data] "P".data "R".data "C".data
      = ([Frag.heading "<h2>src/</h2>".data,
          Frag.warnings
            "<h2>Warnings from Job Execution</h2><pre>[src/a.c:10]: (oops</pre>".data],
         true)
    ∧ Frag.heading "<h2>src/</h2>".data
        ∈ (map_findings ["[src/a.c:10]: (oops".data] "P".data "R".data "C".data).1 := by
  exact ⟨by decide, by decide⟩

/-- C2 amended: a failure at the first split (on `"]: ("`) or at the second
split (on `":"`) routes the whole raw record into the unparseable bucket,
emits no fragment and leaves the memo unchanged; a failure at the final
`") "` split also routes the record into the bucket and emits no finding
fragment, but it happens after the folder-heading check, so the memo is
updated and a heading fragment is emitted whenever the (left) path does not
start with the current memo — for single-location and relation shapes
alike. -/
theorem c2_amended (project repo commit : Str) (st : TState) :
    (∀ record : Str, record ≠ [] → splitOnce record "]: (".data = none →
      stepRecord project repo commit st record
        = some ({ st with job_warnings := st.job_warnings ++ [record] }, []))
    ∧ (∀ record address_part rest : Str, record ≠ [] →
        splitOnce record "]: (".data = some (address_part, rest) →
        splitOnce (lstripAll '[' address_part) ":".data = none →
        stepRecord project repo commit st record
          = some ({ st with job_warnings := st.job_warnings ++ [record] }, []))
    ∧ (∀ path n tail : Str, path ≠ [] → '[' ∉ path → ']' ∉ path → ':' ∉ path →
        ']' ∉ n → '[' ∉ n → ¬ ") ".data <:+: tail →
        stepRecord project repo commit st
            (('[' :: (path ++ (":".data ++ n))) ++ "]: (".data ++ tail)
          = some
              ({ folder_memo := if st.folder_memo.isPrefixOf path then st.folder_memo
                                else candidate_folder path,
                 job_warnings := st.job_warnings ++
                   [('[' :: (path ++ (":".data ++ n))) ++ "]: (".data ++ tail] },
               if st.folder_memo.isPrefixOf path then ([] : List Frag)
               else [Frag.heading ("<h2>".data ++ candidate_folder path ++ "</h2>".data)]))
    ∧ (∀ lp ln rp rn tail : Str, lp ≠ [] → '[' ∉ lp → ']' ∉ lp → ':' ∉ lp →
        ']' ∉ ln → ']' ∉ rp → ':' ∉ rp → ']' ∉ rn → ¬ ") ".data <:+: tail →
        stepRecord project repo commit st
            (('[' :: (lp ++ (":".data ++ (ln ++ ("] -> [".data ++
              (rp ++ (":".data ++ rn))))))) ++ "]: (".data ++ tail)
          = some
              ({ folder_memo := if st.folder_memo.isPrefixOf lp then st.folder_memo
                                else candidate_folder lp,
                 job_warnings := st.job_warnings ++
                   [('[' :: (lp ++ (":".data ++ (ln ++ ("] -> [".data ++
                      (rp ++ (":".data ++ rn))))))) ++ "]: (".data ++ tail] },
               if st.folder_memo.isPrefixOf lp then ([] : List Frag)
               else [Frag.heading ("<h2>".data ++ candidate_folder lp ++ "</h2>".data)])) := by
  refine ⟨?_, ?_, ?_, ?_⟩
  · intro record hne h
    exact stepRecord_fail_first project repo commit st hne h
  · intro record address_part rest hne h1 h2
    exact stepRecord_fail_second project repo commit st hne h1 h2
  · intro path n tail hpne hp1 hp2 hp3 hn1 hn2 htail
    exact stepRecord_single_failLast project repo commit st path n tail
      hpne hp1 hp2 hp3 hn1 hn2 htail
  · intro lp ln rp rn tail hlpne hlp1 hlp2 hlp3 hln1 hrp2 hrp3 hrn1 htail
    exact stepRecord_relation_failLast project repo commit st lp ln rp rn tail
      hlpne hlp1 hlp2 hlp3 hln1 hrp2 hrp3 hrn1 htail

/-- C2 amended witness: the third conjunct at the concrete record
`[src/a.c:10]: (oops` from the initial state. -/
theorem c2_amended_witness :
    stepRecord "P".data "R".data "C".data initial_state "[src/a.c:10]: (oops".data
      = some ({ folder_memo := "src/".data,
                job_warnings := ["[src/a.c:10]: (oops".data] },
              [Frag.heading "<h2>src/</h2>".data]) := by
  have h := (c2_amended "P".data "R".data "C".data initial_state).2.2.1
    "src/a.c".data "10".data "oops".data (by decide) (by decide) (by decide) (by decide)
    (by decide) (by decide) (by decide)
  exact h.trans (by decide)
set_option maxRecDepth 400000 in
/-- C3 counterexample: the claim says the visible link label is the path with
the folder-memo prefix removed and the rest of the path left intact.  The
code uses `str.replace`, which removes every occurrence of the memo: with
memo `a/b/` (set by a first record) the path `a/b/sub/a/b/y.c` is displayed
as `sub/y.c:2` — the claimed label `sub/a/b/y.c:2` appears nowhere in the
emitted fragment. -/
theorem c3_counterexample :
    spec_display "a/b/".data "a/b/sub/a/b/y.c".data "2".data = "sub/a/b/y.c:2".data
    ∧ map_findings ["[a/b/x.c:1]: (error) m".data, "[a/b/sub/a/b/y.c:2]: (error) m".data]
        "P".data "R".data "C".data
      = ([Frag.heading "<h2>a/b/</h2>".data,
          Frag.finding
            "<p class=\"finding\"><span class=\"ff-075\">[<a href=\"https://bitbucket.example.com/projects/P/repos/R/browse/a/b/x.c?at=C#1\" class=\"no-decor\">x.c:1</a>]: </span><span class=\"sp-err\">error</span><span class=\"ff-075\"> m</span></p>".data,
          Frag.finding
            "<p class=\"finding\"><span class=\"ff-075\">[<a href=\"https://bitbucket.example.com/projects/P/repos/R/browse/a/b/sub/a/b/y.c?at=C#2\" class=\"no-decor\">sub/y.c:2</a>]: </span><span class=\"sp-err\">error</span><span class=\"ff-075\"> m</span></p>".data],
         true)
    ∧ ("\">sub/y.c:2</a>".data <:+:
        "<p class=\"finding\"><span class=\"ff-075\">[<a href=\"https://bitbucket.example.com/projects/P/repos/R/browse/a/b/sub/a/b/y.c?at=C#2\" class=\"no-decor\">sub/y.c:2</a>]: </span><span class=\"sp-err\">error</span><span class=\"ff-075\"> m</span></p>".data)
    ∧ ¬ ("sub/a/b/y.c:2".data <:+:
        "<p class=\"finding\"><span class=\"ff-075\">[<a href=\"https://bitbucket.example.com/projects/P/repos/R/browse/a/b/sub/a/b/y.c?at=C#2\" class=\"no-decor\">sub/y.c:2</a>]: </span><span class=\"sp-err\">error</span><span class=\"ff-075\"> m</span></p>".data) := by
  exact ⟨by decide, by decide, by decide, by decide⟩

/-- C3 amended: for a well-formed single-location record, the visible link
label is the path with every occurrence of the current folder memo removed
(`str.replace`), concatenated with `:` and the line-number text; when the
memo occurs in the path only as a leading prefix this coincides with prefix
removal. -/
theorem c3_amended (project repo commit : Str) (st : TState)
    (path n level fnd : Str)
    (hpne : path ≠ []) (hp1 : '[' ∉ path) (hp2 : ']' ∉ path) (hp3 : ':' ∉ path)
    (hn1 : ']' ∉ n) (hn2 : '[' ∉ n) (hl : ')' ∉ level) :
    stepRecord project repo commit st (singleRecord path n level fnd) =
      some
        ({ folder_memo := if st.folder_memo.isPrefixOf path then st.folder_memo
                          else candidate_folder path,
           job_warnings := st.job_warnings },
         (if st.folder_memo.isPrefixOf path then ([] : List Frag)
          else [Frag.heading ("<h2>".data ++ candidate_folder path ++ "</h2>".data)]) ++
         [Frag.finding
           ("<p class=\"finding\"><span class=\"ff-075\">".data ++
            ("[<a href=\"".data ++
              (BASE_URL ++ "projects/".data ++ project ++ "/repos/".data ++ repo ++
                "/browse/".data ++ path ++ "?at=".data ++ commit ++ ['#'] ++ n) ++
              "\" class=\"no-decor\">".data ++
              (removeAll (if st.folder_memo.isPrefixOf path then st.folder_memo
                          else candidate_folder path) path ++ [':'] ++ n) ++
              "</a>]".data) ++
            ": </span>".data ++
            (level_prefix_map level ++ level ++ "</span>".data) ++
            "<span class=\"ff-075\"> ".data ++ fnd ++ "</span></p>".data)]) :=
  stepRecord_single project repo commit st path n level fnd hpne hp1 hp2 hp3 hn1 hn2 hl

set_option maxRecDepth 100000 in
/-- C3 amended witness: with memo `a/b/` the record for path
`a/b/sub/a/b/y.c` is displayed with label `sub/y.c:2` — every occurrence of
the memo removed. -/
theorem c3_amended_witness :
    stepRecord "P".data "R".data "C".data
        { folder_memo := "a/b/".data, job_warnings := [] }
        (singleRecord "a/b/sub/a/b/y.c".data "2".data "error".data "m".data)
      = some ({ folder_memo := "a/b/".data, job_warnings := [] },
          [Frag.finding
            "<p class=\"finding\"><span class=\"ff-075\">[<a href=\"https://bitbucket.example.com/projects/P/repos/R/browse/a/b/sub/a/b/y.c?at=C#2\" class=\"no-decor\">sub/y.c:2</a>]: </span><span class=\"sp-err\">error</span><span class=\"ff-075\"> m</span></p>".data]) := by
  have h := c3_amended "P".data "R".data "C".data
    { folder_memo := "a/b/".data, job_warnings := [] }
    "a/b/sub/a/b/y.c".data "2".data "error".data "m".data
    (by decide) (by decide) (by decide) (by decide) (by decide) (by decide) (by decide)
  exact h.trans (by decide)
/-- C4: for records with primary paths `a/b/x.c`, `a/b/y.c`, `a/c/z.c`
exactly two heading fragments are emitted, `a/b/` then `a/c/`; and in
general a well-formed single-location record yields a heading exactly when
its path does not start with the current folder memo, in which case the
memo becomes the record's directory joined with a trailing slash. -/
theorem c4_folder_headings :
    ((map_findings ["[a/b/x.c:1]: (error) m".data, "[a/b/y.c:2]: (error) m".data,
        "[a/c/z.c:3]: (error) m".data] "P".data "R".data "C".data).1.filter Frag.isHeading
      = [Frag.heading "<h2>a/b/</h2>".data, Frag.heading "<h2>a/c/</h2>".data])
    ∧ (∀ (project repo commit : Str) (st : TState) (path n level fnd : Str),
        path ≠ [] → '[' ∉ path → ']' ∉ path → ':' ∉ path →
        ']' ∉ n → '[' ∉ n → ')' ∉ level →
        (stepRecord project repo commit st (singleRecord path n level fnd)).map
            (fun p => (p.1.folder_memo, p.2.filter Frag.isHeading))
          = some
              ((if st.folder_memo.isPrefixOf path then st.folder_memo
                else candidate_folder path),
               (if st.folder_memo.isPrefixOf path then ([] : List Frag)
                else [Frag.heading ("<h2>".data ++ candidate_folder path ++ "</h2>".data)]))) := by
  constructor
  · decide
  · intro project repo commit st path n level fnd hpne hp1 hp2 hp3 hn1 hn2 hl
    rw [stepRecord_single project repo commit st path n level fnd hpne hp1 hp2 hp3 hn1 hn2 hl]
    by_cases hmemo : st.folder_memo.isPrefixOf path <;>
      simp [hmemo, Frag.isHeading]

/-- C4 witness: the general conjunct at the record `[a/b/x.c:1]: (error) m`
from the initial state: the memo does not match, so one heading `a/b/` is
emitted and the memo becomes `a/b/`. -/
theorem c4_folder_headings_witness :
    (stepRecord "P".data "R".data "C".data initial_state
        (singleRecord "a/b/x.c".data "1".data "error".data "m".data)).map
        (fun p => (p.1.folder_memo, p.2.filter Frag.isHeading))
      = some ("a/b/".data, [Frag.heading "<h2>a/b/</h2>".data]) := by
  have h := c4_folder_headings.2 "P".data "R".data "C".data initial_state
    "a/b/x.c".data "1".data "error".data "m".data
    (by decide) (by decide) (by decide) (by decide) (by decide) (by decide) (by decide)
  exact h.trans (by decide)

/-- C5: every emitted anchor href is the fixed base URL followed by
`projects/{project}/repos/{repo}/browse/{path}?at={commit}#{line_number}`
(shown in place in the emitted fragment for a well-formed single-location
record), and the `branch` CLI argument has no effect: two `process` calls
differing only in the branch argument print identical lines. -/
theorem c5_href_and_branch_unused :
    (∀ (project repo b1 b2 commit : Str) (stdin : List Str),
      process [project, repo, b1, commit] stdin = process [project, repo, b2, commit] stdin)
    ∧ (∀ (project repo commit : Str) (st : TState) (path n level fnd : Str),
        path ≠ [] → '[' ∉ path → ']' ∉ path → ':' ∉ path →
        ']' ∉ n → '[' ∉ n → ')' ∉ level →
        stepRecord project repo commit st (singleRecord path n level fnd) =
          some
            ({ folder_memo := if st.folder_memo.isPrefixOf path then st.folder_memo
                              else candidate_folder path,
               job_warnings := st.job_warnings },
             (if st.folder_memo.isPrefixOf path then ([] : List Frag)
              else [Frag.heading ("<h2>".data ++ candidate_folder path ++ "</h2>".data)]) ++
             [Frag.finding
               ("<p class=\"finding\"><span class=\"ff-075\">".data ++
                ("[<a href=\"".data ++
                  (BASE_URL ++ "projects/".data ++ project ++ "/repos/".data ++ repo ++
                    "/browse/".data ++ path ++ "?at=".data ++ commit ++ ['#'] ++ n) ++
                  "\" class=\"no-decor\">".data ++
                  (removeAll (if st.folder_memo.isPrefixOf path then st.folder_memo
                              else candidate_folder path) path ++ [':'] ++ n) ++
                  "</a>]".data) ++
                ": </span>".data ++
                (level_prefix_map level ++ level ++ "</span>".data) ++
                "<span class=\"ff-075\"> ".data ++ fnd ++ "</span></p>".data)])) := by
  constructor
  · intro project repo b1 b2 commit stdin
    rfl
  · intro project repo commit st path n level fnd hpne hp1 hp2 hp3 hn1 hn2 hl
    exact stepRecord_single project repo commit st path n level fnd hpne hp1 hp2 hp3 hn1 hn2 hl

set_option maxRecDepth 400000 in
/-- C5 witness: both conjuncts at concrete inputs; the fragment for
`[src/a.c:10]: (error) m` carries the href
`https://bitbucket.example.com/projects/P/repos/R/browse/src/a.c?at=C#10`. -/
theorem c5_href_and_branch_unused_witness :
    process ["P".data, "R".data, "B1".data, "C".data] ["[src/a.c:10]: (error) m".data]
      = process ["P".data, "R".data, "B2".data, "C".data] ["[src/a.c:10]: (error) m".data]
    ∧ stepRecord "P".data "R".data "C".data initial_state
        (singleRecord "src/a.c".data "10".data "error".data "m".data)
      = some ({ folder_memo := "src/".data, job_warnings := [] },
          [Frag.heading "<h2>src/</h2>".data,
           Frag.finding
             "<p class=\"finding\"><span class=\"ff-075\">[<a href=\"https://bitbucket.example.com/projects/P/repos/R/browse/src/a.c?at=C#10\" class=\"no-decor\">a.c:10</a>]: </span><span class=\"sp-err\">error</span><span class=\"ff-075\"> m</span></p>".data]) := by
  constructor
  · exact c5_href_and_branch_unused.1 "P".data "R".data "B1".data "B2".data "C".data
      ["[src/a.c:10]: (error) m".data]
  · have h := c5_href_and_branch_unused.2 "P".data "R".data "C".data initial_state
      "src/a.c".data "10".data "error".data "m".data
      (by decide) (by decide) (by decide) (by decide) (by decide) (by decide) (by decide)
    exact h.trans (by decide)

/-- C6 counterexample: the claim says the trailing warnings fragment is
emitted for every input with at least one unparseable line.  On the input
`['junk', '[a:1] -> [b]: (e) m']` the line `junk` is collected as
unparseable (first conjunct), but the second line aborts the generator with
the uncaught relation-branch `ValueError`, so no fragment at all — in
particular no trailing warnings block — is ever emitted (second
conjunct). -/
theorem c6_counterexample :
    stepLine "P".data "R".data "C".data initial_state "junk".data
      = some ({ folder_memo := "NOWHERE_LAND".data, job_warnings := ["junk".data] }, [])
    ∧ map_findings ["junk".data, "[a:1] -> [b]: (e) m".data] "P".data "R".data "C".data
      = ([], false) := by
  exact ⟨by decide, by decide⟩

/-- C6 amended: when the transform runs to completion, the trailing
warnings fragment (heading plus `<pre>` block of the collected lines joined
by newlines, in input order) is appended exactly once, as the last element,
when at least one line was unparseable, and not at all when none was — no
loop-body fragment is ever a warnings fragment; a run aborted by the
uncaught relation-branch error emits no trailing fragment even when
unparseable lines were collected. -/
theorem c6_trailing_warnings (project repo commit : Str) :
    (∀ (lines : List Str) (body : List Frag) (st : TState),
      map_findings_run project repo commit initial_state lines = (body, some st) →
      map_findings lines project repo commit
        = (body ++ (if st.job_warnings = [] then []
                    else [Frag.warnings (warn_block st.job_warnings)]), true)
      ∧ ∀ s, Frag.warnings s ∉ body)
    ∧ (∀ (lines : List Str) (body : List Frag),
      map_findings_run project repo commit initial_state lines = (body, none) →
      map_findings lines project repo commit = (body, false)
      ∧ ∀ s, Frag.warnings s ∉ body) := by
  constructor
  · intro lines body st h
    constructor
    · simp [map_findings, h]
    · intro s
      have hmem := map_findings_run_not_warnings project repo commit initial_state lines s
      rw [h] at hmem
      exact hmem
  · intro lines body h
    constructor
    · simp [map_findings, h]
    · intro s
      have hmem := map_findings_run_not_warnings project repo commit initial_state lines s
      rw [h] at hmem
      exact hmem

/-- C6 witness: one unparseable line `junk` on a completing run yields
exactly the trailing warnings block, as the last (here: only) fragment. -/
theorem c6_trailing_warnings_witness :
    map_findings ["junk".data] "P".data "R".data "C".data
      = ([Frag.warnings (warn_block ["junk".data])], true) := by
  have h := (c6_trailing_warnings "P".data "R".data "C".data).1 ["junk".data] []
    { folder_memo := "NOWHERE_LAND".data, job_warnings := ["junk".data] } (by decide)
  exact h.1.trans (by decide)

/-- C7 counterexample: the claim says the non-blank line itself appears
verbatim in the trailing `<pre>` block.  The code first strips the line and
buckets the stripped record: for input <code> x </code> the block contains `x`, and
the original line <code> x </code> (with its surrounding blanks) appears nowhere in
the emitted fragment. -/
theorem c7_counterexample :
    map_findings [" x ".data] "P".data "R".data "C".data
      = ([Frag.warnings "<h2>Warnings from Job Execution</h2><pre>x</pre>".data], true)
    ∧ ¬ (" x ".data <:+: "<h2>Warnings from Job Execution</h2><pre>x</pre>".data) := by
  exact ⟨by decide, by decide⟩

/-- C7 amended: a line whose stripped record is non-blank and has no
`"]: ("` substring yields no fragment at processing time and its stripped
record is appended (in order) to the warnings bucket; whenever the whole
transform runs to completion, that stripped record appears in the final
bucket and the single trailing block — the bucket joined by newlines — is
emitted; a run aborted by the uncaught relation-branch error emits no
trailing block at all. -/
theorem c7_amended (project repo commit : Str) :
    (∀ (st : TState) (line : Str), pyStrip line ≠ [] →
      ¬ ("]: (".data <:+: pyStrip line) →
      stepLine project repo commit st line
        = some ({ st with job_warnings := st.job_warnings ++ [pyStrip line] }, []))
    ∧ (∀ (pre post : List Str) (l : Str) (body : List Frag) (stF : TState),
        pyStrip l ≠ [] → ¬ ("]: (".data <:+: pyStrip l) →
        map_findings_run project repo commit initial_state (pre ++ l :: post)
          = (body, some stF) →
        (∃ before after, stF.job_warnings = before ++ pyStrip l :: after)
        ∧ map_findings (pre ++ l :: post) project repo commit
            = (body ++ [Frag.warnings (warn_block stF.job_warnings)], true))
    ∧ (∀ (lines : List Str) (body : List Frag),
        map_findings_run project repo commit initial_state lines = (body, none) →
        map_findings lines project repo commit = (body, false)) := by
  refine ⟨?_, ?_, ?_⟩
  · intro st line hne hinf
    exact stepRecord_fail_first project repo commit st hne
      (splitOnce_eq_none_of_no_match (by decide) hinf)
  · intro pre post l body stF hne hinf htot
    have horig := htot
    rw [map_findings_run_append] at htot
    cases hr1 : map_findings_run project repo commit initial_state pre with
    | mk b1 o1 =>
      rw [hr1] at htot
      cases o1 with
      | none => simp at htot
      | some st1 =>
        have hstep : stepLine project repo commit st1 l
            = some ({ st1 with job_warnings := st1.job_warnings ++ [pyStrip l] }, []) :=
          stepRecord_fail_first project repo commit st1 hne
            (splitOnce_eq_none_of_no_match (by decide) hinf)
        simp only [map_findings_run, hstep, List.nil_append] at htot
        have h2 : (map_findings_run project repo commit
            { st1 with job_warnings := st1.job_warnings ++ [pyStrip l] } post).2
            = some stF := by
          have hsnd := congrArg Prod.snd htot
          simpa using hsnd
        obtain ⟨t, ht⟩ := map_findings_run_jw_mono project repo commit post
          { st1 with job_warnings := st1.job_warnings ++ [pyStrip l] }
          (map_findings_run project repo commit
            { st1 with job_warnings := st1.job_warnings ++ [pyStrip l] } post).1 stF
          (run_eta_of_snd h2)
        have hjw : stF.job_warnings = st1.job_warnings ++ pyStrip l :: t := by
          rw [ht]
          simp [List.append_assoc]
        refine ⟨⟨st1.job_warnings, t, hjw⟩, ?_⟩
        have hjw_ne : stF.job_warnings ≠ [] := by
          rw [hjw]
          simp
        simp [map_findings, horig, hjw_ne]
  · intro lines body h
    simp [map_findings, h]

/-- C7 amended witness: the middle conjunct at the single padded line
<code> x </code> with empty surroundings: the completing run buckets the stripped
record `x` and emits exactly the trailing block holding it. -/
theorem c7_amended_witness :
    map_findings [" x ".data] "P".data "R".data "C".data
      = ([Frag.warnings (warn_block ["x".data])], true) := by
  have h := (c7_amended "P".data "R".data "C".data).2.1 [] [] " x ".data []
    { folder_memo := "NOWHERE_LAND".data, job_warnings := ["x".data] }
    (by decide) (by decide) (by decide)
  exact h.2.trans (by decide)

/-- C8: the severity lookup is total with the `nn` fallback: for every
level text that is none of the eight dictionary keys, the opening tag is
the `sp-nn` span while the visible label stays the original level text. -/
theorem c8_severity_fallback_total (level : Str)
    (h : level ∉ (["error".data, "information".data, "style".data, "performance".data,
      "portability".data, "warning".data, "performance, inconclusive".data,
      "style, inconclusive".data] : List Str)) :
    level_prefix_map level = "<span class=\"sp-nn\">".data
    ∧ level_prefix_map level ++ level ++ "</span>".data
      = "<span class=\"sp-nn\">".data ++ level ++ "</span>".data := by
  simp only [List.mem_cons, List.not_mem_nil, or_false, not_or] at h
  obtain ⟨h1, h2, h3, h4, h5, h6, h7, h8⟩ := h
  have hmain : level_prefix_map level = "<span class=\"sp-nn\">".data := by
    simp [level_prefix_map, h1, h2, h3, h4, h5, h6, h7, h8]
  exact ⟨hmain, by rw [hmain]⟩

/-- C8 witness: the unknown level `bogus` gets the `sp-nn` badge with the
label `bogus`. -/
theorem c8_severity_fallback_total_witness :
    level_prefix_map "bogus".data = "<span class=\"sp-nn\">".data
    ∧ level_prefix_map "bogus".data ++ "bogus".data ++ "</span>".data
      = "<span class=\"sp-nn\">".data ++ "bogus".data ++ "</span>".data :=
  c8_severity_fallback_total "bogus".data (by decide)

/-- C9 counterexample: the claim says `process` returns exit code 0 for
every argument vector of length exactly 4, but on the malformed relation
line `[a:b[c]: (e) m` the transform raises an uncaught `ValueError`, so
`process` never returns (modelled as `none`). -/
theorem c9_counterexample :
    process ["P".data, "R".data, "B".data, "C".data] ["[a:b[c]: (e) m".data] = none
    ∧ (["P".data, "R".data, "B".data, "C".data] : List Str).length = 4 := by
  exact ⟨by decide, by decide⟩

/-- C9 amended: an argument vector whose length is not 4 makes `process`
print the two usage lines to standard output and return exit code 2; with
exactly 4 arguments it returns exit code 0 whenever the transform runs to
completion. -/
theorem c9_amended :
    (∀ (argv stdin : List Str), argv.length ≠ 4 →
      process argv stdin = some (2, [usage_line_one, usage_line_two argv]))
    ∧ (∀ (project repo branch commit : Str) (stdin : List Str) (fs : List Frag),
        map_findings stdin project repo commit = (fs, true) →
        process [project, repo, branch, commit] stdin = some (0, fs.map Frag.render)) := by
  constructor
  · intro argv stdin h
    rcases argv with _ | ⟨a, _ | ⟨b, _ | ⟨c, _ | ⟨d, _ | ⟨e, t⟩⟩⟩⟩⟩
    · rfl
    · rfl
    · rfl
    · rfl
    · exact absurd rfl h
    · rfl
  · intro project repo branch commit stdin fs h
    simp [process, h]

/-- C9 amended witness: the argument vector `['[]']` (the CLI test case)
yields exit code 2 with the two usage lines; four arguments with an empty
stdin yield exit code 0. -/
theorem c9_amended_witness :
    process ["[]".data] [] = some (2, [usage_line_one, usage_line_two ["[]".data]])
    ∧ process ["P".data, "R".data, "B".data, "C".data] [] = some (0, []) := by
  constructor
  · exact c9_amended.1 ["[]".data] [] (by decide)
  · exact (c9_amended.2 "P".data "R".data "B".data "C".data [] [] (by decide)).trans
      (by decide)
/-- C10: for a well-formed relation record only the left path drives the
folder logic: the heading check and memo update use the left path alone (no
heading is checked or emitted for the right path's folder), and the right
display label is the right path with the occurrences of the left-derived
memo removed, concatenated with `:` and the right line number — also when
the right path lies in a different directory. -/
theorem c10_relation_left_folder_only (project repo commit : Str) (st : TState)
    (lp ln rp rn level fnd : Str)
    (hlpne : lp ≠ []) (hlp1 : '[' ∉ lp) (hlp2 : ']' ∉ lp) (hlp3 : ':' ∉ lp)
    (hln1 : ']' ∉ ln) (hrp2 : ']' ∉ rp) (hrp3 : ':' ∉ rp) (hrn1 : ']' ∉ rn)
    (hl : ')' ∉ level) :
    stepRecord project repo commit st (relationRecord lp ln rp rn level fnd) =
      some
        ({ folder_memo := if st.folder_memo.isPrefixOf lp then st.folder_memo
                          else candidate_folder lp,
           job_warnings := st.job_warnings },
         (if st.folder_memo.isPrefixOf lp then ([] : List Frag)
          else [Frag.heading ("<h2>".data ++ candidate_folder lp ++ "</h2>".data)]) ++
         [Frag.finding
           ("<p class=\"finding\"><span class=\"ff-075\">".data ++
            ("[<a href=\"".data ++
              (BASE_URL ++ "projects/".data ++ project ++ "/repos/".data ++ repo ++
                "/browse/".data ++ lp ++ "?at=".data ++ commit ++ ['#'] ++ ln) ++
              "\" class=\"no-decor\">".data ++
              (removeAll (if st.folder_memo.isPrefixOf lp then st.folder_memo
                          else candidate_folder lp) lp ++ [':'] ++ ln) ++
              "</a>]".data) ++
            " -&gt; ".data ++
            ("[<a href=\"".data ++
              (BASE_URL ++ "projects/".data ++ project ++ "/repos/".data ++ repo ++
                "/browse/".data ++ rp ++ "?at=".data ++ commit ++ ['#'] ++ rn) ++
              "\" class=\"no-decor\">".data ++
              (removeAll (if st.folder_memo.isPrefixOf lp then st.folder_memo
                          else candidate_folder lp) rp ++ [':'] ++ rn) ++
              "</a>]".data) ++
            ": </span>".data ++
            (level_prefix_map level ++ level ++ "</span>".data) ++
            "<span class=\"ff-075\"> ".data ++ fnd ++ "</span></p>".data)]) :=
  stepRecord_relation project repo commit st lp ln rp rn level fnd
    hlpne hlp1 hlp2 hlp3 hln1 hrp2 hrp3 hrn1 hl

set_option maxRecDepth 400000 in
/-- C10 witness: the relation `[a/b/x.c:5] -> [q/w/z.h:9]: (warning) rel`
from the initial state: one heading `a/b/` (from the left path only), no
heading for `q/w/`, and the right label `q/w/z.h:9` keeps its directory
because the memo `a/b/` does not occur in it. -/
theorem c10_relation_left_folder_only_witness :
    stepRecord "P".data "R".data "C".data initial_state
        (relationRecord "a/b/x.c".data "5".data "q/w/z.h".data "9".data
          "warning".data "rel".data)
      = some ({ folder_memo := "a/b/".data, job_warnings := [] },
          [Frag.heading "<h2>a/b/</h2>".data,
           Frag.finding
             "<p class=\"finding\"><span class=\"ff-075\">[<a href=\"https://bitbucket.example.com/projects/P/repos/R/browse/a/b/x.c?at=C#5\" class=\"no-decor\">x.c:5</a>] -&gt; [<a href=\"https://bitbucket.example.com/projects/P/repos/R/browse/q/w/z.h?at=C#9\" class=\"no-decor\">q/w/z.h:9</a>]: </span><span class=\"sp-warn\">warning</span><span class=\"ff-075\"> rel</span></p>".data]) := by
  have h := c10_relation_left_folder_only "P".data "R".data "C".data initial_state
    "a/b/x.c".data "5".data "q/w/z.h".data "9".data "warning".data "rel".data
    (by decide) (by decide) (by decide) (by decide) (by decide) (by decide) (by decide)
    (by decide) (by decide)
  exact h.trans (by decide)
end CppcheckMapHtml
